import Mathlib

set_option maxRecDepth 1000000

/-!
# Verification of the I2E invoice-text extraction engine

Shallow embedding of `src/shared/pdf-extractor.js` (the invoice extraction
core).  Strings are modelled as `List Char`; JavaScript numbers as `JSNum`
(NaN, signed Infinity, or an exact rational — decimal arithmetic is modelled
exactly by `ℚ`); JavaScript `null` as `Option.none`.  JavaScript regular
expressions are embedded as abstract syntax trees (`RE`) interpreted by a
fuel-based backtracking matcher that mirrors ECMAScript matching:
leftmost match, alternation tried left to right, greedy/lazy quantifiers,
word boundaries, multiline anchors and negative lookahead.
-/

namespace I2E

/-! ## Basic character and string utilities (JS string semantics) -/

/-- The characters JavaScript `\s` (and `trim`) treat as whitespace,
restricted to ASCII, which covers the texts the engine handles. -/
def isJsSpace (c : Char) : Bool :=
  c = ' ' || c = '\t' || c = '\n' || c = '\r' || c = '\x0b' || c = '\x0c'

/-- ECMAScript word character (for `\b`): `[A-Za-z0-9_]`. -/
def isWordCh (c : Char) : Bool :=
  ('a' ≤ c && c ≤ 'z') || ('A' ≤ c && c ≤ 'Z') || ('0' ≤ c && c ≤ '9') || c = '_'

def isDigitCh (c : Char) : Bool := '0' ≤ c && c ≤ '9'

/-- `String.prototype.toLowerCase`, code-point-wise (ASCII-adequate). -/
def jsToLower (s : List Char) : List Char := s.map Char.toLower

/-- `String.prototype.trim`. -/
def jsTrim (s : List Char) : List Char :=
  (s.dropWhile isJsSpace).reverse.dropWhile isJsSpace |>.reverse

/-- Substring of `s` from index `a` (inclusive) to `b` (exclusive). -/
def slice (s : List Char) (a b : Nat) : List Char := (s.drop a).take (b - a)

/-- `String.prototype.indexOf(sub, from)`: the least index `≥ from` where
`sub` occurs, or `none`. -/
def indexOfFromAux (sub : List Char) (rest : List Char) (pos : Nat) : Option Nat :=
  match rest with
  | [] => if sub.isEmpty then some pos else none
  | _ :: tl =>
      if sub.isPrefixOf rest then some pos
      else indexOfFromAux sub tl (pos + 1)

def indexOfFrom (s sub : List Char) (start : Nat) : Option Nat :=
  (indexOfFromAux sub (s.drop start) start)

def indexOf (s sub : List Char) : Option Nat := indexOfFrom s sub 0

/-- `String.prototype.includes`. -/
def jsIncludes (s sub : List Char) : Bool := (indexOf s sub).isSome

/-- Remove the first occurrence of character `c` (JS `replace('-','')`
with a plain-string pattern replaces only the first occurrence). -/
def removeFirstChar (c : Char) : List Char → List Char
  | [] => []
  | x :: xs => if x = c then xs else x :: removeFirstChar c xs

/-- Replace the first occurrence of character `a` by `b`
(JS `replace(',', '.')`). -/
def replaceFirstChar (a b : Char) : List Char → List Char
  | [] => []
  | x :: xs => if x = a then b :: xs else x :: replaceFirstChar a b xs

/-- Index of the last occurrence of `c`, as an integer, `-1` if absent
(JS `lastIndexOf`). -/
def lastIndexOfChar (s : List Char) (c : Char) : Int :=
  (List.range s.length).foldl
    (fun acc i => if s.getD i ' ' = c then (i : Int) else acc) (-1)

/-- Split on characters satisfying `p` (JS `split` with a whitespace-run
regex or a separator character class: separators at the ends produce
empty pieces, like the JS regex split). -/
def splitByPredAux (p : Char → Bool) (inRun : Bool) :
    List Char → List Char → List (List Char)
  | [], acc => if inRun then [[]] else [acc.reverse]
  | c :: cs, acc =>
      if inRun then
        if p c then splitByPredAux p true cs []
        else splitByPredAux p false cs [c]
      else
        if p c then acc.reverse :: splitByPredAux p true cs []
        else splitByPredAux p false cs (c :: acc)

/-- JS `split` with a one-separator-class regex.  A run of separators is a
single split point for the whitespace-plus split; for the
dot-slash-hyphen class each separator splits individually, so the caller
chooses `collapse`. -/
def splitByPred (collapse : Bool) (p : Char → Bool) (s : List Char) : List (List Char) :=
  if collapse then splitByPredAux p false s []
  else splitSingle p s []
where
  splitSingle (p : Char → Bool) : List Char → List Char → List (List Char)
    | [], acc => [acc.reverse]
    | c :: cs, acc =>
        if p c then acc.reverse :: splitSingle p cs []
        else splitSingle p cs (c :: acc)

/-- `String.prototype.padStart(2, '0')`. -/
def padStart2 (s : List Char) : List Char :=
  if s.length ≥ 2 then s else List.replicate (2 - s.length) '0' ++ s

/-! ## JavaScript numbers -/

/-- A JavaScript number as produced by `parseFloat`: NaN, a signed
infinity, or a finite value (modelled exactly as a rational — the engine's
inputs are short decimal strings, for which IEEE rounding is below the
granularity of every property in the specification). -/
inductive JSNum where
  | nan : JSNum
  | inf : Bool → JSNum      -- `inf true` is `-Infinity`
  | num : ℚ → JSNum
deriving DecidableEq, Repr

def jsNeg : JSNum → JSNum
  | .nan => .nan
  | .inf b => .inf (!b)
  | .num q => .num (-q)

/-- `Math.abs`. -/
def jsAbs : JSNum → JSNum
  | .nan => .nan
  | .inf _ => .inf false
  | .num q => .num |q|

/-- The JS `>` comparison (false whenever NaN is involved). -/
def jsGt : JSNum → JSNum → Bool
  | .nan, _ => false
  | _, .nan => false
  | .inf false, .inf false => false
  | .inf false, _ => true
  | .inf true, _ => false
  | .num _, .inf false => false
  | .num _, .inf true => true
  | .num a, .num b => decide (b < a)

/-- `x || 0` on a nullable number: `null`, `NaN` and `0`/`-0` are falsy. -/
def jsOrZero : Option JSNum → JSNum
  | none => .num 0
  | some .nan => .num 0
  | some (.num q) => if q = 0 then .num 0 else .num q
  | some v => v

/-- Value of a digit string, most significant first. -/
def digitsToNat (ds : List Char) : Nat :=
  ds.foldl (fun acc c => acc * 10 + (c.toNat - '0'.toNat)) 0

/-- The optional sign at the front of a `parseFloat` input. -/
def parseFloatSign : List Char → Bool × List Char
  | [] => (false, [])
  | c :: r =>
      if c = '-' then (true, r)
      else if c = '+' then (false, r)
      else (false, c :: r)

/-- The unsigned part of `parseFloat`: an `Infinity` literal or a decimal
`digits [. digits] [e|E [sign] digits]` prefix; NaN when no digits can be
consumed.  The value is assembled as a single normalized fraction so that
the kernel can evaluate it. -/
def parseFloatMag (s2 : List Char) : JSNum :=
  if ("Infinity".toList).isPrefixOf s2 then .inf false
  else
    let intDs := s2.takeWhile isDigitCh
    let r1 := s2.drop intDs.length
    let fracDs := if r1.head? = some '.' then r1.tail.takeWhile isDigitCh else []
    let r2 := if r1.head? = some '.' then r1.tail.drop fracDs.length else r1
    if intDs.isEmpty && fracDs.isEmpty then .nan
    else
      let expPart : Int :=
        match r2 with
        | 'e' :: r | 'E' :: r =>
            let (eneg, r3) :=
              match r with
              | '-' :: rr => (true, rr)
              | '+' :: rr => (false, rr)
              | rr => (false, rr)
            let eds := r3.takeWhile isDigitCh
            if eds.isEmpty then 0
            else if eneg then -(digitsToNat eds : Int) else (digitsToNat eds : Int)
        | _ => 0
      let mantNum : Int := (digitsToNat intDs * 10 ^ fracDs.length + digitsToNat fracDs : Nat)
      if 0 ≤ expPart then
        .num (mkRat (mantNum * (10 : Int) ^ expPart.toNat) (10 ^ fracDs.length))
      else
        .num (mkRat mantNum (10 ^ fracDs.length * 10 ^ (-expPart).toNat))

/-- `parseFloat`: skip leading whitespace, optional sign, magnitude. -/
def parseFloat (s : List Char) : JSNum :=
  let sg := parseFloatSign (s.dropWhile isJsSpace)
  if sg.1 then jsNeg (parseFloatMag sg.2) else parseFloatMag sg.2

/-- The separator normalization step of `parseAmount`: if the string
contains `,` with the last `,` after the last `.`, drop every `.` and
turn the first `,` into `.`; otherwise drop every `,`. -/
def parseAmountClean (clean0 : List Char) : List Char :=
  if clean0.contains ',' && lastIndexOfChar clean0 ',' > lastIndexOfChar clean0 '.' then
    replaceFirstChar ',' '.' (clean0.filter (fun c => c ≠ '.'))
  else
    clean0.filter (fun c => c ≠ ',')

/-- `parseAmount(amountStr)` from `pdf-extractor.js`: `null` for a falsy
(empty) input; strip a trailing `-` as sign marker (JS `replace('-','')`
removes the first `-`); normalize the separators; then `parseFloat`,
negated when the trailing `-` marker was present. -/
def parseAmount (s : List Char) : Option JSNum :=
  if s.isEmpty then none
  else
    let amount := parseFloat (parseAmountClean (removeFirstChar '-' s))
    some (if s.getLast? = some '-' then jsNeg amount else amount)

/-- `parseInt(str, 10)` on an all-digit capture. -/
def parseIntDigits (s : List Char) : Nat := digitsToNat (s.takeWhile isDigitCh)

end I2E

namespace I2E

/-! ## ECMAScript regular expressions: syntax trees -/

/-- One item of a character class: a single character or a range. -/
inductive CCls where
  | single : Char → CCls
  | range : Char → Char → CCls
deriving Repr

def cclsMatch1 : CCls → Char → Bool
  | .single a, c => c = a
  | .range lo hi, c => lo ≤ c && c ≤ hi

/-- Does character `c` match the class `items` (negated when `neg`)?
Under the `i` flag, ECMAScript also matches the case-folded character. -/
def cclsMatch (ci : Bool) (neg : Bool) (items : List CCls) (c : Char) : Bool :=
  let base (d : Char) := items.any (fun it => cclsMatch1 it d)
  let hit := base c || (ci && (base c.toLower || base c.toUpper))
  if neg then !hit else hit

/-- Abstract syntax of the regular expressions used by the extractor.
Quantifiers with counters are desugared at construction time, so the
interpreter needs only these constructors.  `alt` tries the left branch
first (ECMAScript order). -/
inductive RE where
  | eps : RE
  | ch : Char → RE
  | cls : Bool → List CCls → RE  -- negated?, items
  | dot : RE                     -- any character except line terminators
  | cat : RE → RE → RE
  | alt : RE → RE → RE
  | star : Bool → RE → RE        -- lazy?, body
  | group : Nat → RE → RE        -- capturing group with its index
  | wb : RE                      -- word boundary
  | bos : RE                     -- caret without the m flag
  | eos : RE                     -- dollar without the m flag
  | eol : RE                     -- dollar with the m flag
  | nla : RE → RE                -- negative lookahead
deriving Repr

/-- Captured-group store: most recent binding first. -/
def Caps := List (Nat × List Char)

def capGet (caps : Caps) (i : Nat) : Option (List Char) :=
  (List.find? (fun p => p.1 = i) caps).map (fun p => p.2)

/-- Syntactic size of a pattern, used only to budget the matcher's fuel. -/
def reSize : RE → Nat
  | .cat a b | .alt a b => reSize a + reSize b + 1
  | .star _ a | .group _ a | .nla a => reSize a + 1
  | _ => 1

/-- Backtracking matcher in continuation-passing style over positions of
`s`.  The recursion is structural on `fuel`, decremented on every call;
along any one call chain the matcher descends at most `reSize r` levels
of syntax between star iterations, every star iteration strictly
advances the position (ECMAScript stops a quantifier whose body matched
empty), so a fuel of `(reSize r + 2) * (s.length + 2)` never runs out. -/
def reM (s : List Char) (ci : Bool) :
    Nat → RE → Nat → Caps → (Nat → Caps → Option (Nat × Caps)) → Option (Nat × Caps)
  | 0, _, _, _, _ => none
  | _ + 1, .eps, pos, caps, k => k pos caps
  | _ + 1, .ch c, pos, caps, k =>
      match s[pos]? with
      | some c2 =>
          if (if ci then c2.toLower = c.toLower else c2 = c) then k (pos + 1) caps else none
      | none => none
  | _ + 1, .cls neg items, pos, caps, k =>
      match s[pos]? with
      | some c2 => if cclsMatch ci neg items c2 then k (pos + 1) caps else none
      | none => none
  | _ + 1, .dot, pos, caps, k =>
      match s[pos]? with
      | some c2 => if c2 = '\n' || c2 = '\r' then none else k (pos + 1) caps
      | none => none
  | f + 1, .cat a b, pos, caps, k =>
      reM s ci f a pos caps (fun p c => reM s ci f b p c k)
  | f + 1, .alt a b, pos, caps, k =>
      (reM s ci f a pos caps k) <|> (reM s ci f b pos caps k)
  | f + 1, .star lz a, pos, caps, k =>
      let iter :=
        reM s ci f a pos caps (fun p c =>
          if p ≤ pos then none else reM s ci f (.star lz a) p c k)
      if lz then (k pos caps) <|> iter else iter <|> (k pos caps)
  | f + 1, .group i a, pos, caps, k =>
      reM s ci f a pos caps (fun p c => k p ((i, slice s pos p) :: c))
  | _ + 1, .wb, pos, caps, k =>
      let pw := match pos, s[pos - 1]? with
                | 0, _ => false
                | _ + 1, some c2 => isWordCh c2
                | _ + 1, none => false
      let nw := match s[pos]? with
                | some c2 => isWordCh c2
                | none => false
      if pw != nw then k pos caps else none
  | _ + 1, .bos, pos, caps, k => if pos = 0 then k pos caps else none
  | _ + 1, .eos, pos, caps, k => if pos = s.length then k pos caps else none
  | _ + 1, .eol, pos, caps, k =>
      if pos = s.length || s[pos]? = some '\n' then k pos caps else none
  | f + 1, .nla a, pos, caps, k =>
      match reM s ci f a pos caps (fun p c => some (p, c)) with
      | some _ => none
      | none => k pos caps

/-- Try to match `r` with the whole-match continuation at position `pos`. -/
def reMatchAt (ci : Bool) (r : RE) (s : List Char) (pos : Nat) : Option (Nat × Caps) :=
  reM s ci ((reSize r + 2) * (s.length + 2)) r pos [] (fun p c => some (p, c))

/-- Leftmost match at or after `pos` (ECMAScript scanning):
returns (start, stop, captures). -/
def reFindFromAux (ci : Bool) (r : RE) (s : List Char) :
    Nat → Nat → Option (Nat × Nat × Caps)
  | 0, _ => none
  | n + 1, pos =>
      match reMatchAt ci r s pos with
      | some (e, caps) => some (pos, e, caps)
      | none => if s.length ≤ pos then none else reFindFromAux ci r s n (pos + 1)

def reFindFrom (ci : Bool) (r : RE) (s : List Char) (start : Nat) :
    Option (Nat × Nat × Caps) :=
  reFindFromAux ci r s (s.length + 1 - start) start

/-- `regex.test(s)` / truthiness of `s.match(regex)`. -/
def reTest (ci : Bool) (r : RE) (s : List Char) : Bool :=
  (reFindFrom ci r s 0).isSome

/-- `s.match(regex)[0]` for a regex without the g flag. -/
def reMatch0 (ci : Bool) (r : RE) (s : List Char) : Option (List Char) :=
  (reFindFrom ci r s 0).map (fun t => slice s t.1 t.2.1)

/-- `s.match(regex)[i]` (the `i`-th capturing group) for a regex without
the g flag; `none` both when there is no match and when the group did not
participate (JS `undefined`). -/
def reCap (ci : Bool) (r : RE) (s : List Char) (i : Nat) : Option (List Char) :=
  match reFindFrom ci r s 0 with
  | none => none
  | some (_, _, caps) => capGet caps i

/-- `s.match(regex)` with the g flag: the list of full matches, scanning
from each match's end (one past it after an empty match). -/
def reFindAllAux (ci : Bool) (r : RE) (s : List Char) :
    Nat → Nat → List (List Char)
  | 0, _ => []
  | n + 1, pos =>
      match reFindFrom ci r s pos with
      | none => []
      | some (a, b, _) =>
          slice s a b :: reFindAllAux ci r s n (if a < b then b else b + 1)

def reFindAll (ci : Bool) (r : RE) (s : List Char) : List (List Char) :=
  reFindAllAux ci r s (s.length + 2) 0

/-- `s.replace(regex, repl)` without the g flag: replace the first match. -/
def reReplaceFirst (ci : Bool) (r : RE) (s : List Char) (repl : List Char) :
    List Char :=
  match reFindFrom ci r s 0 with
  | none => s
  | some (a, b, _) => s.take a ++ repl ++ s.drop b

/-! ### Constructors mirroring regex surface syntax -/

def reSeq (l : List RE) : RE := l.foldr .cat .eps

def reStr (t : String) : RE := reSeq (t.toList.map .ch)

def reAlts : List RE → RE
  | [] => .eps
  | [r] => r
  | r :: rest => .alt r (reAlts rest)

/-- `a?` (greedy when `g`). -/
def reOpt (g : Bool) (a : RE) : RE := if g then .alt a .eps else .alt .eps a

/-- `a+` (greedy when `lz = false`). -/
def rePlus (lz : Bool) (a : RE) : RE := .cat a (.star lz a)

/-- `a{n}`. -/
def reRepN (n : Nat) (a : RE) : RE := reSeq (List.replicate n a)

/-- Up to `n` copies of `a` (greedy when `g`): the tail of `a{m,n}`. -/
def reUpTo (g : Bool) : Nat → RE → RE
  | 0, _ => .eps
  | n + 1, a =>
      if g then .alt (.cat a (reUpTo g n a)) .eps
      else .alt .eps (.cat a (reUpTo g n a))

/-- `a{lo,hi}` (greedy when `g`). -/
def reRepRange (g : Bool) (lo hi : Nat) (a : RE) : RE :=
  .cat (reRepN lo a) (reUpTo g (hi - lo) a)

/-- `a{lo,}` greedy. -/
def reAtLeast (lo : Nat) (a : RE) : RE := .cat (reRepN lo a) (.star false a)

def clsDigit : RE := .cls false [.range '0' '9']                     -- \d and [0-9]
def clsWord : RE := .cls false
  [.range 'A' 'Z', .range 'a' 'z', .range '0' '9', .single '_']      -- \w
def clsWs : RE := .cls false
  ([' ', '\t', '\n', '\r', '\x0b', '\x0c'].map .single)              -- \s (ASCII)
def clsOf (l : List Char) : RE := .cls false (l.map .single)
def clsDotComma : RE := clsOf ['.', ',']                             -- [.,]
def clsDigitsDotComma : RE :=
  .cls false [.range '0' '9', .single '.', .single ',']              -- [0-9.,]
def clsUpperDigit : RE := .cls false [.range 'A' 'Z', .range '0' '9'] -- [A-Z0-9]
def clsAnyAll : RE := .cls true []                                   -- [\s\S]

end I2E

namespace I2E

/-! ## Pattern transcriptions and document-level extractors

Each `RE` below transcribes one regex literal of `pdf-extractor.js`;
the original is quoted in the comment with `%` standing for the regex
delimiter to keep comments well formed. -/

def clsDotSlash : RE := clsOf ['.', '/']                              -- [./]
def clsUpper : RE := .cls false [.range 'A' 'Z']                      -- [A-Z]

/-- `Service\s+Provision\s+Period\s*:?\s*(\d{1,2}[./]\d{4}(?:\s*-\s*\d{1,2}[./]\d{4})?)` -/
def reSPP1 : RE :=
  reSeq [reStr "Service", rePlus false clsWs, reStr "Provision", rePlus false clsWs,
    reStr "Period", .star false clsWs, reOpt true (.ch ':'), .star false clsWs,
    .group 1 (reSeq [reRepRange true 1 2 clsDigit, clsDotSlash, reRepN 4 clsDigit,
      reOpt true (reSeq [.star false clsWs, .ch '-', .star false clsWs,
        reRepRange true 1 2 clsDigit, clsDotSlash, reRepN 4 clsDigit])])]

/-- `Period\s*:?\s*(\d{1,2}[./]\d{4}(?:\s*-\s*\d{1,2}[./]\d{4})?)` -/
def reSPP2 : RE :=
  reSeq [reStr "Period", .star false clsWs, reOpt true (.ch ':'), .star false clsWs,
    .group 1 (reSeq [reRepRange true 1 2 clsDigit, clsDotSlash, reRepN 4 clsDigit,
      reOpt true (reSeq [.star false clsWs, .ch '-', .star false clsWs,
        reRepRange true 1 2 clsDigit, clsDotSlash, reRepN 4 clsDigit])])]

/-- `([A-Z]{3,9}\s+\d{4})` -/
def reSPP3 : RE :=
  .group 1 (reSeq [reRepRange true 3 9 clsUpper, rePlus false clsWs, reRepN 4 clsDigit])

/-- `Service.*?Period.*?:?\s*([0-9][0-9]?[./]\d{4}(?:\s*-\s*[0-9][0-9]?[./]\d{4})?)` -/
def reSPP4 : RE :=
  reSeq [reStr "Service", .star true .dot, reStr "Period", .star true .dot,
    reOpt true (.ch ':'), .star false clsWs,
    .group 1 (reSeq [clsDigit, reOpt true clsDigit, clsDotSlash, reRepN 4 clsDigit,
      reOpt true (reSeq [.star false clsWs, .ch '-', .star false clsWs,
        clsDigit, reOpt true clsDigit, clsDotSlash, reRepN 4 clsDigit])])]

/-- `Provision.*?Period.*?:?\s*([0-9][0-9]?[./]\d{4}(?:\s*-\s*[0-9][0-9]?[./]\d{4})?)` -/
def reSPP5 : RE :=
  reSeq [reStr "Provision", .star true .dot, reStr "Period", .star true .dot,
    reOpt true (.ch ':'), .star false clsWs,
    .group 1 (reSeq [clsDigit, reOpt true clsDigit, clsDotSlash, reRepN 4 clsDigit,
      reOpt true (reSeq [.star false clsWs, .ch '-', .star false clsWs,
        clsDigit, reOpt true clsDigit, clsDotSlash, reRepN 4 clsDigit])])]

/-- The field kinds `extractField` knows. -/
inductive FieldType where
  | projectId | invoiceNumber | customerId | dateOfInvoice | currency | vat
  | serviceProvisionPeriod
deriving DecidableEq, Repr

/-- The ordered pattern list per field, with each pattern's `i` flag.
Transcribed from the `patterns` table of `extractField`. -/
def fieldPatterns : FieldType → List (Bool × RE)
  | .projectId =>
      [ -- %([A-Z]{2}\d{2}-PRO\d{7})%
        (false, .group 1 (reSeq [reRepN 2 clsUpper, reRepN 2 clsDigit, .ch '-',
          reStr "PRO", reRepN 7 clsDigit])),
        -- %(PRO\d{7})%
        (false, .group 1 (reSeq [reStr "PRO", reRepN 7 clsDigit])),
        -- %([A-Z]{2}-PRO\d{7})%
        (false, .group 1 (reSeq [reRepN 2 clsUpper, .ch '-',
          reStr "PRO", reRepN 7 clsDigit]))]
  | .invoiceNumber =>
      [ -- %Invoice\s+No\.?\s*:?\s*(\d+)%i
        (true, reSeq [reStr "Invoice", rePlus false clsWs, reStr "No",
          reOpt true (.ch '.'), .star false clsWs, reOpt true (.ch ':'),
          .star false clsWs, .group 1 (rePlus false clsDigit)]),
        -- %Credit\s+Note\s+No\.?\s*:?\s*(\d+)%i
        (true, reSeq [reStr "Credit", rePlus false clsWs, reStr "Note",
          rePlus false clsWs, reStr "No", reOpt true (.ch '.'), .star false clsWs,
          reOpt true (.ch ':'), .star false clsWs, .group 1 (rePlus false clsDigit)]),
        -- %Invoice\s+Number\s*:?\s*(\d+)%i
        (true, reSeq [reStr "Invoice", rePlus false clsWs, reStr "Number",
          .star false clsWs, reOpt true (.ch ':'), .star false clsWs,
          .group 1 (rePlus false clsDigit)])]
  | .customerId =>
      [ -- %Customer\s+ID\s*:?\s*(\d+)%i
        (true, reSeq [reStr "Customer", rePlus false clsWs, reStr "ID",
          .star false clsWs, reOpt true (.ch ':'), .star false clsWs,
          .group 1 (rePlus false clsDigit)]),
        -- %Client\s+ID\s*:?\s*(\d+)%i
        (true, reSeq [reStr "Client", rePlus false clsWs, reStr "ID",
          .star false clsWs, reOpt true (.ch ':'), .star false clsWs,
          .group 1 (rePlus false clsDigit)])]
  | .dateOfInvoice =>
      [ -- %Date\s*:?\s*(\d{1,2}[./]\d{1,2}[./]\d{4})%i
        (true, reSeq [reStr "Date", .star false clsWs, reOpt true (.ch ':'),
          .star false clsWs, .group 1 (reSeq [reRepRange true 1 2 clsDigit,
            clsDotSlash, reRepRange true 1 2 clsDigit, clsDotSlash,
            reRepN 4 clsDigit])]),
        -- %Invoice\s+Date\s*:?\s*(\d{1,2}[./]\d{1,2}[./]\d{4})%i
        (true, reSeq [reStr "Invoice", rePlus false clsWs, reStr "Date",
          .star false clsWs, reOpt true (.ch ':'), .star false clsWs,
          .group 1 (reSeq [reRepRange true 1 2 clsDigit, clsDotSlash,
            reRepRange true 1 2 clsDigit, clsDotSlash, reRepN 4 clsDigit])])]
  | .currency =>
      [ -- %Currency\s*:?\s*([A-Z]{3})%i
        (true, reSeq [reStr "Currency", .star false clsWs, reOpt true (.ch ':'),
          .star false clsWs, .group 1 (reRepN 3 clsUpper)]),
        -- %(EUR|USD|GBP)%
        (false, .group 1 (reAlts [reStr "EUR", reStr "USD", reStr "GBP"]))]
  | .vat =>
      [ -- %VAT\s*ID\s*:?\s*([A-Z0-9]+)%i
        (true, reSeq [reStr "VAT", .star false clsWs, reStr "ID", .star false clsWs,
          reOpt true (.ch ':'), .star false clsWs, .group 1 (rePlus false clsUpperDigit)]),
        -- %BTW\s*:?\s*([A-Z0-9]+)%i
        (true, reSeq [reStr "BTW", .star false clsWs, reOpt true (.ch ':'),
          .star false clsWs, .group 1 (rePlus false clsUpperDigit)])]
  | .serviceProvisionPeriod =>
      [(true, reSPP1), (true, reSPP2), (true, reSPP3), (true, reSPP4), (true, reSPP5)]

/-- `extractField(text, fieldType)`: first pattern whose match succeeds
returns its first capturing group; `null` when none matches. -/
def extractField (text : List Char) (ft : FieldType) : Option (List Char) :=
  go (fieldPatterns ft)
where
  go : List (Bool × RE) → Option (List Char)
    | [] => none
    | (ci, r) :: rest =>
        if reTest ci r text then reCap ci r text 1 else go rest

/-- The `months` table of `extractMonthFromDate`. -/
def monthsByNumber : List (List Char × List Char) :=
  [("01", "January"), ("02", "February"), ("03", "March"), ("04", "April"),
   ("05", "May"), ("06", "June"), ("07", "July"), ("08", "August"),
   ("09", "September"), ("10", "October"), ("11", "November"), ("12", "December")
  ].map (fun p => (p.1.toList, p.2.toList))

/-- `extractMonthFromDate(dateStr)`: split on dot, slash or hyphen, read
the second segment as the month number (left-padded to two digits), map
through the month table; `null` propagates. -/
def extractMonthFromDate (dateStr : Option (List Char)) : Option (List Char) :=
  match dateStr with
  | none => none
  | some ds =>
      let parts := splitByPred false (fun c => c = '.' || c = '/' || c = '-') ds
      if 3 ≤ parts.length then
        let monthNum := padStart2 (parts.getD 1 [])
        (List.find? (fun p => p.1 = monthNum) monthsByNumber).map (fun p => p.2)
      else none

/-- The keyword list of `detectCreditNote`. -/
def creditIndicators : List (List Char) :=
  ["credit note", "creditnote", "credit memo", "refund",
   "return", "adjustment", "reversal"].map String.toList

/-- `detectCreditNote(text)`: case-insensitive substring search of the
fixed keyword list over the whole text. -/
def detectCreditNote (text : List Char) : Bool :=
  let textLower := jsToLower text
  creditIndicators.any (fun ind => jsIncludes textLower ind)

/-- `classifyCostType(description)`: ordered keyword checks on the
lowercased description. -/
def classifyCostType (description : List Char) : List Char :=
  let descLower := jsToLower description
  if jsIncludes descLower "application".toList ||
     jsIncludes descLower "infrastructure".toList then "Internal".toList
  else if jsIncludes descLower "external".toList ||
          jsIncludes descLower "other".toList then "External".toList
  else if jsIncludes descLower "consultant".toList ||
          jsIncludes descLower "service".toList ||
          jsIncludes descLower "support".toList then "External".toList
  else "Internal".toList

/-- `\b(JAN|FEB|MAR|APR|MAY|JUN|JUL|AUG|SEP|OCT|NOV|DEC)\s+(\d{4})\b` (i flag) -/
def reMonthAbbr : RE :=
  reSeq [.wb, .group 1 (reAlts ((["JAN", "FEB", "MAR", "APR", "MAY", "JUN",
    "JUL", "AUG", "SEP", "OCT", "NOV", "DEC"] : List String).map reStr)),
    rePlus false clsWs, .group 2 (reRepN 4 clsDigit), .wb]

/-- `Service.*?Period.*?:?\s*(\d{1,2})[./](\d{4})` (i flag) -/
def reServicePeriodFb1 : RE :=
  reSeq [reStr "Service", .star true .dot, reStr "Period", .star true .dot,
    reOpt true (.ch ':'), .star false clsWs,
    .group 1 (reRepRange true 1 2 clsDigit), clsDotSlash,
    .group 2 (reRepN 4 clsDigit)]

/-- `\b(\d{1,2})[./](\d{4})\b` (no flags) -/
def reServicePeriodFb2 : RE :=
  reSeq [.wb, .group 1 (reRepRange true 1 2 clsDigit), clsDotSlash,
    .group 2 (reRepN 4 clsDigit), .wb]

/-- The month-abbreviation table of `extractServicePeriodFromPage`. -/
def monthAbbrMap : List (List Char × List Char) :=
  [("JAN", "January"), ("FEB", "February"), ("MAR", "March"),
   ("APR", "April"), ("MAY", "May"), ("JUN", "June"),
   ("JUL", "July"), ("AUG", "August"), ("SEP", "September"),
   ("OCT", "October"), ("NOV", "November"), ("DEC", "December")
  ].map (fun p => (p.1.toList, p.2.toList))

/-- The `monthNames` array of the fallback branch (index 0 unused). -/
def monthNamesArr : List (List Char) :=
  (["", "January", "February", "March", "April", "May", "June",
    "July", "August", "September", "October", "November", "December"] :
    List String).map String.toList

def jsToUpper (s : List Char) : List Char := s.map Char.toUpper

/-- `extractServicePeriodFromPage(pageText)`: month-abbreviation pattern
first; then the two fallback patterns in order, each accepted only when
its month lies in 1..12; sentinel `"Unknown Period"` otherwise.  A failed
month-map lookup renders JS `undefined` into the template string. -/
def extractServicePeriodFromPage (pageText : List Char) : List Char :=
  match reFindFrom true reMonthAbbr pageText 0 with
  | some (_, _, caps) =>
      let monthAbbr := jsToUpper ((capGet caps 1).getD [])
      let year := (capGet caps 2).getD []
      let fullMonthName :=
        ((List.find? (fun p => p.1 = monthAbbr) monthAbbrMap).map (fun p => p.2)
          ).getD "undefined".toList
      fullMonthName ++ [' '] ++ year
  | none => goFallback [(true, reServicePeriodFb1), (false, reServicePeriodFb2)]
where
  goFallback : List (Bool × RE) → List Char
    | [] => "Unknown Period".toList
    | (ci, r) :: rest =>
        match reFindFrom ci r pageText 0 with
        | some (_, _, caps) =>
            let month := parseIntDigits ((capGet caps 1).getD [])
            let year := (capGet caps 2).getD []
            if 1 ≤ month ∧ month ≤ 12 then
              (monthNamesArr.getD month []) ++ [' '] ++ year
            else goFallback rest
        | none => goFallback rest

end I2E

namespace I2E

/-! ## Total-candidate scan (`extractInvoiceTotal`) -/

/-- `\b(Total|Subtotal.*\(Net\)|Subtotal)\b` (i flag): line selection. -/
def reTotalSubLine : RE :=
  reSeq [.wb, .group 1 (reAlts [reStr "Total",
    reSeq [reStr "Subtotal", .star false .dot, reStr "(Net)"],
    reStr "Subtotal"]), .wb]

/-- `Position.*Total` (i flag). -/
def rePositionTotal : RE :=
  reSeq [reStr "Position", .star false .dot, reStr "Total"]

/-- `VAT\s+[0-9.,]+%` (i flag): VAT amount lines to skip. -/
def reVatAmountLine : RE :=
  reSeq [reStr "VAT", rePlus false clsWs, rePlus false clsDigitsDotComma, .ch '%']

/-- `\b(Total|Subtotal.*?\(Net\)?)\b` (i flag).  The final `?` binds to
the escaped closing parenthesis only, so the second alternative needs a
literal `(Net` and optionally `)`. -/
def reTotalWordM : RE :=
  reSeq [.wb, .group 1 (.alt (reStr "Total")
    (reSeq [reStr "Subtotal", .star true .dot, reStr "(Net", reOpt true (.ch ')')])),
    .wb]

/-- `([0-9]{1,3}(?:[.,][0-9]{3})*[.,][0-9]{2}[-]?)` (g flag): amount tokens. -/
def reAmountToken : RE :=
  .group 1 (reSeq [reRepRange true 1 3 clsDigit,
    .star false (reSeq [clsDotComma, reRepN 3 clsDigit]),
    clsDotComma, reRepN 2 clsDigit, reOpt true (.ch '-')])

/-- `\bTotal\b` (i flag). -/
def reWordTotal : RE := reSeq [.wb, reStr "Total", .wb]

/-- `Subtotal` (i flag). -/
def reSubtotalWord : RE := reStr "Subtotal"

/-- `.*Total.*$` (i and m flags). -/
def reLineWithTotal : RE :=
  reSeq [.star false .dot, reStr "Total", .star false .dot, .eol]

/-- `\bTotal\b(?!.*Subtotal)` (i flag). -/
def reTotalNoSubAfter : RE :=
  reSeq [.wb, reStr "Total", .wb, .nla (reSeq [.star false .dot, reStr "Subtotal"])]

/-- `([0-9.,]+[-]?)`: the coarse amount capture of the fallback branch. -/
def reAmtPlus : RE := reSeq [rePlus false clsDigitsDotComma, reOpt true (.ch '-')]

def reAmtSimple : RE := .group 1 reAmtPlus

/-- The `totalPatterns` array (all with g and i flags), in source order. -/
def totalPatterns : List RE :=
  [ -- %Total\s+([0-9.,]+[-]?)%gi
    reSeq [reStr "Total", rePlus false clsWs, .group 1 reAmtPlus],
    -- %Total\s*:?\s*([0-9.,]+[-]?)%gi
    reSeq [reStr "Total", .star false clsWs, reOpt true (.ch ':'), .star false clsWs,
      .group 1 reAmtPlus],
    -- %Subtotal\s+([0-9.,]+[-]?)%gi
    reSeq [reStr "Subtotal", rePlus false clsWs, .group 1 reAmtPlus],
    -- %Grand\s+Total\s+([0-9.,]+[-]?)%gi
    reSeq [reStr "Grand", rePlus false clsWs, reStr "Total", rePlus false clsWs,
      .group 1 reAmtPlus],
    -- %Subtotal\s*\(Net\)\s+([0-9.,]+[-]?)%gi
    reSeq [reStr "Subtotal", .star false clsWs, reStr "(Net)", rePlus false clsWs,
      .group 1 reAmtPlus],
    -- %\w+\s+\d+\s+Subtotal\s*\(Net\)\s+([0-9.,]+[-]?)%gi
    reSeq [rePlus false clsWord, rePlus false clsWs, rePlus false clsDigit,
      rePlus false clsWs, reStr "Subtotal", .star false clsWs, reStr "(Net)",
      rePlus false clsWs, .group 1 reAmtPlus],
    -- %Total[\s\S]{0,50}?([0-9.,]{4,}[-]?)%gi
    reSeq [reStr "Total", reUpTo false 50 clsAnyAll,
      .group 1 (reSeq [reAtLeast 4 clsDigitsDotComma, reOpt true (.ch '-')])],
    -- %Subtotal[\s\S]{0,50}?([0-9.,]{4,}[-]?)%gi
    reSeq [reStr "Subtotal", reUpTo false 50 clsAnyAll,
      .group 1 (reSeq [reAtLeast 4 clsDigitsDotComma, reOpt true (.ch '-')])]]

/-- One per-page potential total, as collected by `extractInvoiceTotal`. -/
structure PotTotal where
  amount : JSNum
  type : List Char
  line : List Char
  priority : Nat
deriving DecidableEq, Repr

/-- Stable sort matching `Array.prototype.sort` with a strict-order
comparator: `lt a b` means the comparator puts `a` strictly before `b`. -/
def jsSortBy (lt : α → α → Bool) : List α → List α
  | [] => []
  | x :: xs => insertIn lt x (jsSortBy lt xs)
where
  insertIn (lt : α → α → Bool) (x : α) : List α → List α
    | [] => [x]
    | y :: ys => if lt y x then y :: insertIn lt x ys else x :: y :: ys

/-- `pageText.split('\n')` (plain-string split, no collapsing). -/
def splitLines (s : List Char) : List (List Char) :=
  splitByPred false (fun c => c = '\n') s

/-- `/\bTotal\b/i.test(line) && !/Subtotal/i.test(line)` for one line. -/
def lineIsMainTotal (line : List Char) : Bool :=
  reTest true reWordTotal line && !(reTest true reSubtotalWord line)

/-- The same-line part of the scan: a candidate from amounts appearing
within 50 characters after the matched total word, keeping the largest
absolute value exceeding 1. -/
def sameLineCands (line : List Char) : List PotTotal :=
  match reMatch0 true reTotalWordM line with
  | none => []
  | some tw =>
      let sameLineMatch := reFindAll false reAmountToken line
      if sameLineMatch.isEmpty then []
      else
        let totalWordIndex := (indexOf line tw).getD 0
        let totalWordEnd := totalWordIndex + tw.length
        let isMainTotal := lineIsMainTotal line
        let bestAmount := sameLineMatch.foldl (fun b astr =>
          match indexOfFrom line astr totalWordEnd with
          | some ai =>
              if ai - totalWordEnd < 50 then
                match parseAmount astr with
                | some amount =>
                    if jsGt (jsAbs amount) (.num 1) then
                      if jsGt (jsAbs amount) (jsAbs (jsOrZero b)) then some amount else b
                    else b
                | none => b
              else b
          | none => b) none
        match bestAmount with
        | some amount =>
            [⟨amount, if isMainTotal then "Total".toList else "Subtotal".toList,
              jsTrim line, if isMainTotal then 1 else 2⟩]
        | none => []

/-- The next-lines part of the scan: up to the next two lines, skipping
VAT lines, the largest amount on the first line that has any; recorded
only when its absolute value exceeds 1 (then the inner loop breaks). -/
def nextLineCands (lines : List (List Char)) (line : List Char)
    (isMainTotal : Bool) : List Nat → List PotTotal
  | [] => []
  | j :: rest =>
      let checkLine := lines.getD j []
      if reTest true reVatAmountLine checkLine then
        nextLineCands lines line isMainTotal rest
      else
        let amountMatch := reFindAll false reAmountToken checkLine
        if amountMatch.isEmpty then nextLineCands lines line isMainTotal rest
        else
          let largestAmount := amountMatch.foldl (fun b astr =>
            match parseAmount astr with
            | some amount =>
                if jsGt (jsAbs amount) (jsAbs (jsOrZero b)) then some amount else b
            | none => b) none
          match largestAmount with
          | some l =>
              if jsGt (jsAbs l) (.num 1) then
                [⟨l, if isMainTotal then "Total".toList else "Subtotal".toList,
                  jsTrim line ++ " -> ".toList ++ jsTrim checkLine,
                  if isMainTotal then 1 else 2⟩]
              else nextLineCands lines line isMainTotal rest
          | none => nextLineCands lines line isMainTotal rest

/-- The full line loop of `extractInvoiceTotal`, accumulating
`potentialTotals` in order. -/
def potentialTotalsOf (lines : List (List Char)) : List PotTotal :=
  (List.range lines.length).foldl (fun acc i =>
    let line := lines.getD i []
    if reTest true reTotalSubLine line && !(reTest true rePositionTotal line) then
      if reTest true reVatAmountLine line then acc
      else
        let acc1 := acc ++ sameLineCands line
        let sameLineFound := !(reFindAll false reAmountToken line).isEmpty
        if !sameLineFound || !(acc1.any (fun t => t.line = jsTrim line)) then
          acc1 ++ nextLineCands lines line (lineIsMainTotal line)
            (((List.range lines.length).filter
              (fun j => i + 1 ≤ j && j < min (i + 3) lines.length)))
        else acc1
    else acc) []

/-- The fallback branch of `extractInvoiceTotal`: each coarse pattern in
order, taking the last g-flag match, its first coarse amount token, and
accepting a parse that is neither `null` nor `0`. -/
def fallbackTotal (pageText : List Char) : Option JSNum :=
  go totalPatterns
where
  go : List RE → Option JSNum
    | [] => none
    | r :: rest =>
        match (reFindAll true r pageText).getLast? with
        | none => go rest
        | some lastMatch =>
            match reCap false reAmtSimple lastMatch 1 with
            | none => go rest
            | some amtStr =>
                match parseAmount amtStr with
                | some a => if a ≠ .num 0 then some a else go rest
                | none => go rest

/-- `extractInvoiceTotal(pageText)`: line scan first (best candidate by
priority, stable within equal priority), else the coarse fallback. -/
def extractInvoiceTotal (pageText : List Char) : Option JSNum :=
  let lines := splitLines pageText
  let pots := potentialTotalsOf lines
  match (jsSortBy (fun a b => a.priority < b.priority) pots).head? with
  | some p => some p.amount
  | none => fallbackTotal pageText

end I2E

namespace I2E

/-! ## Line-item extraction (`extractLineItems`) -/

/-- `\b(Subtotal|Total)\b` (i flag): section boundary. -/
def reBoundary : RE :=
  reSeq [.wb, .group 1 (.alt (reStr "Subtotal") (reStr "Total")), .wb]

/-- `\d+[.,]?\d*%\([A-Z0-9]+\)` (no flags): the VAT anchor. -/
def reVatAnchor : RE :=
  reSeq [rePlus false clsDigit, reOpt true clsDotComma, .star false clsDigit,
    .ch '%', .ch '(', rePlus false clsUpperDigit, .ch ')']

/-- Strategy A pattern (g flag, `exec` with `lastIndex` reset, hence the
first match): `(\d{4})\s+(\d{6})\s+(.+?)\s+(\d+[.,]?\d*)\s+([A-Z]+)\s+`
`(\d+[.,]?\d*%\([A-Z0-9]+\))\s+([\d.,]+)\s+([\d.,]+-?)`. -/
def reStructured : RE :=
  reSeq [.group 1 (reRepN 4 clsDigit), rePlus false clsWs,
    .group 2 (reRepN 6 clsDigit), rePlus false clsWs,
    .group 3 (rePlus true .dot), rePlus false clsWs,
    .group 4 (reSeq [rePlus false clsDigit, reOpt true clsDotComma,
      .star false clsDigit]), rePlus false clsWs,
    .group 5 (rePlus false clsUpper), rePlus false clsWs,
    .group 6 (reSeq [rePlus false clsDigit, reOpt true clsDotComma,
      .star false clsDigit, .ch '%', .ch '(', rePlus false clsUpperDigit, .ch ')']),
    rePlus false clsWs,
    .group 7 (rePlus false clsDigitsDotComma), rePlus false clsWs,
    .group 8 (reSeq [rePlus false clsDigitsDotComma, reOpt true (.ch '-')])]

/-- One extracted line item (the object literal built by the strategies). -/
structure LItem where
  position : List Char
  material : List Char
  positionDescription : List Char
  positionQuantity : JSNum
  unit : List Char
  vat : List Char
  unitPrice : Option JSNum
  positionTotal : Option JSNum
  typeCost : List Char
deriving DecidableEq, Repr

/-- Strategy A on one candidate line. -/
def strategyAItem (line : List Char) : Option LItem :=
  match reFindFrom false reStructured line 0 with
  | none => none
  | some (_, _, caps) =>
      let description := (capGet caps 3).getD []
      let quantity := (capGet caps 4).getD []
      some { position := (capGet caps 1).getD [],
             material := (capGet caps 2).getD [],
             positionDescription := jsTrim description,
             positionQuantity := parseFloat (replaceFirstChar ',' '.' quantity),
             unit := (capGet caps 5).getD [],
             vat := (capGet caps 6).getD [],
             unitPrice := parseAmount ((capGet caps 7).getD []),
             positionTotal := parseAmount ((capGet caps 8).getD []),
             typeCost := classifyCostType description }

def strategyA (candidateLines : List (List Char)) : List LItem :=
  candidateLines.foldl (fun acc line =>
    match strategyAItem line with
    | some item => if item.positionTotal.isSome then acc ++ [item] else acc
    | none => acc) []

/-- `^\d{4}$`. -/
def reFourDigits : RE := reSeq [.bos, reRepN 4 clsDigit, .eos]

/-- `^[\d.,]+-?$`. -/
def reAmtShape : RE :=
  reSeq [.bos, rePlus false clsDigitsDotComma, reOpt true (.ch '-'), .eos]

/-- `^\d+[.,]?\d*$`. -/
def reBareNum : RE :=
  reSeq [.bos, rePlus false clsDigit, reOpt true clsDotComma, .star false clsDigit, .eos]

/-- `Array.prototype.findIndex`: `-1` when absent. -/
def jsFindIdx (p : α → Bool) (l : List α) : Int :=
  match l.findIdx? p with
  | some i => (i : Int)
  | none => -1

/-- The description/quantity loop of strategy B: indices from
`posIndex + 2` up to (excluding) `vatIndex - 2`; the first bare-number
token not already contained in the accumulated description becomes the
quantity and breaks the loop, every other token joins the description
followed by a space. -/
def qtyDescLoop (parts : List (List Char)) :
    Nat → Nat → List Char → List Char × Option JSNum
  | 0, _, desc => (desc, none)
  | fuel + 1, i, desc =>
      let tok := parts.getD i []
      if reTest false reBareNum tok && !(jsIncludes desc tok) then
        (desc, some (parseFloat (replaceFirstChar ',' '.' tok)))
      else qtyDescLoop parts fuel (i + 1) (desc ++ tok ++ [' '])

/-- Strategy B on one candidate line: whitespace-tokenize the trimmed
line, locate the 4-digit position token, the VAT-anchor token and the
first amount-shaped token after it. -/
def strategyBItem (line : List Char) : Option LItem :=
  let parts := splitByPred true isJsSpace (jsTrim line)
  let posIndex : Int := jsFindIdx (fun p => reTest false reFourDigits p) parts
  if 0 ≤ posIndex then
    let vatIndex : Int := jsFindIdx (fun p => reTest false reVatAnchor p) parts
    let amountIndex : Int :=
      jsFindIdx (fun pr => decide (vatIndex < (pr.1 : Int)) && reTest false reAmtShape pr.2)
        parts.enum
    if decide (posIndex < vatIndex) && decide (vatIndex < amountIndex) then
      let pi := posIndex.toNat
      let vi := vatIndex.toNat
      let material := parts.getD (pi + 1) []
      let (description, qtyOpt) :=
        qtyDescLoop parts ((vatIndex - 2) - (posIndex + 2)).toNat (pi + 2) []
      let unitTok := parts.getD (vi - 1) []
      some { position := parts.getD pi [],
             material := material,
             positionDescription :=
               if (jsTrim description).isEmpty then "Unknown Service".toList
               else jsTrim description,
             positionQuantity := (qtyOpt.getD (.num 1)),
             unit := if unitTok.isEmpty then "PU".toList else unitTok,
             vat := parts.getD vi [],
             unitPrice := some (jsOrZero (parseAmount (parts.getD (vi + 1) []))),
             positionTotal := parseAmount (parts.getD amountIndex.toNat []),
             typeCost := classifyCostType description }
    else none
  else none

def strategyB (candidateLines : List (List Char)) : List LItem :=
  candidateLines.foldl (fun acc line =>
    match strategyBItem line with
    | some item => if item.positionTotal.isSome then acc ++ [item] else acc
    | none => acc) []

/-- Strategy C pattern: `(\d{4})\s+.*?(\d+[.,]?\d*%\([A-Z0-9]+\)).*?([\d.,]+-?)$`. -/
def reSimpleC : RE :=
  reSeq [.group 1 (reRepN 4 clsDigit), rePlus false clsWs, .star true .dot,
    .group 2 (reSeq [rePlus false clsDigit, reOpt true clsDotComma,
      .star false clsDigit, .ch '%', .ch '(', rePlus false clsUpperDigit, .ch ')']),
    .star true .dot,
    .group 3 (reSeq [rePlus false clsDigitsDotComma, reOpt true (.ch '-')]), .eos]

/-- `\d{4}\s+(\d{6})`: optional material code. -/
def reMaterialAfterPos : RE :=
  reSeq [reRepN 4 clsDigit, rePlus false clsWs, .group 1 (reRepN 6 clsDigit)]

/-- `^\d{4}\s+(\d{6}\s+)?`: prefix stripped from the description. -/
def reStripPosMaterial : RE :=
  reSeq [.bos, reRepN 4 clsDigit, rePlus false clsWs,
    reOpt true (.group 1 (reSeq [reRepN 6 clsDigit, rePlus false clsWs]))]

/-- `\s+\d+[.,]?\d*.*$`: numeric suffix stripped from the description. -/
def reStripSuffix : RE :=
  reSeq [rePlus false clsWs, rePlus false clsDigit, reOpt true clsDotComma,
    .star false clsDigit, .star false .dot, .eos]

/-- Strategy C on one candidate line. -/
def strategyCItem (line : List Char) : Option LItem :=
  match reFindFrom false reSimpleC line 0 with
  | none => none
  | some (_, _, caps) =>
      let total := parseAmount ((capGet caps 3).getD [])
      if total.isSome then
        let material := (reCap false reMaterialAfterPos line 1).getD []
        let description0 := reReplaceFirst false reStripPosMaterial line []
        let description := jsTrim (reReplaceFirst false reStripSuffix description0 [])
        some { position := (capGet caps 1).getD [],
               material := material,
               positionDescription :=
                 if description.isEmpty then "Service Item".toList else description,
               positionQuantity := .num 1,
               unit := "PU".toList,
               vat := (capGet caps 2).getD [],
               unitPrice := total,
               positionTotal := total,
               typeCost := classifyCostType description }
      else none

def strategyC (candidateLines : List (List Char)) : List LItem :=
  candidateLines.foldl (fun acc line =>
    match strategyCItem line with
    | some item => acc ++ [item]
    | none => acc) []

/-- The boundary cut: the lines before the first Total/Subtotal line that
is not a "Position Total" header. -/
def lineItemSection (lines : List (List Char)) : List (List Char) :=
  lines.takeWhile (fun line =>
    !(reTest true reBoundary line && !(reTest true rePositionTotal line)))

/-- Candidate lines: trimmed length above 20 and a VAT anchor present. -/
def candidateLinesOf (lines : List (List Char)) : List (List Char) :=
  (lineItemSection lines).filter (fun line =>
    20 < (jsTrim line).length && reTest false reVatAnchor (jsTrim line))

/-- `extractLineItems(pageText, pageNumber)`: strategy A, then B if A
produced nothing, then C if B also produced nothing. -/
def extractLineItems (pageText : List Char) (_pageNumber : Nat) : List LItem :=
  let candidateLines := candidateLinesOf (splitLines pageText)
  let itemsA := strategyA candidateLines
  if !itemsA.isEmpty then itemsA
  else
    let itemsB := strategyB candidateLines
    if !itemsB.isEmpty then itemsB
    else strategyC candidateLines

/-! ## Cross-page total choice and assembly (`extractInvoiceData`) -/

/-- An entry of `allPageTotals`. -/
structure PageTot where
  amount : JSNum
  pageNumber : Nat
  pageText : List Char
deriving DecidableEq, Repr

/-- `/\bTotal\b/i.test(pageText) && !/Subtotal/i.test(pageText.match(%.*Total.*$%im)?.[0] || '')`. -/
def hasMainTotal (pageText : List Char) : Bool :=
  reTest true reWordTotal pageText &&
    !(reTest true reSubtotalWord ((reMatch0 true reLineWithTotal pageText).getD []))

/-- `/Subtotal/i.test(pageText) && !/\bTotal\b(?!.*Subtotal)/i.test(pageText)`. -/
def hasSubtotalOnly (pageText : List Char) : Bool :=
  reTest true reSubtotalWord pageText && !(reTest true reTotalNoSubAfter pageText)

/-- `hasMainTotal ? 1 : (hasSubtotalOnly ? 3 : 2)`. -/
def pagePriority (pageText : List Char) : Nat :=
  if hasMainTotal pageText then 1 else if hasSubtotalOnly pageText then 3 else 2

/-- A classified cross-page candidate. -/
structure TotCand where
  amount : JSNum
  pageNumber : Nat
  pageText : List Char
  priority : Nat
deriving DecidableEq, Repr

def classifyCandidates (l : List PageTot) : List TotCand :=
  l.map (fun c => ⟨c.amount, c.pageNumber, c.pageText, pagePriority c.pageText⟩)

/-- The cross-page comparator: priority ascending, then page number
descending (`a` strictly before `b`). -/
def crossLt (a b : TotCand) : Bool :=
  a.priority < b.priority || (a.priority = b.priority && b.pageNumber < a.pageNumber)

/-- The cross-page choice block of `extractInvoiceData`. -/
def chooseBestTotal (allPageTotals : List PageTot) : Option JSNum :=
  ((jsSortBy crossLt (classifyCandidates allPageTotals)).head?).map (fun c => c.amount)

/-- `baseInvoiceInfo`. -/
structure BaseInvoiceInfo where
  fileName : List Char
  projectId : Option (List Char)
  invoiceNumber : Option (List Char)
  customerId : Option (List Char)
  dateOfInvoice : Option (List Char)
  monthOfInvoice : Option (List Char)
  currency : Option (List Char)
  vat : Option (List Char)
  creditNote : Bool
deriving DecidableEq, Repr

def mkBaseInvoiceInfo (fullText fileName : List Char) : BaseInvoiceInfo :=
  { fileName := fileName,
    projectId := extractField fullText .projectId,
    invoiceNumber := extractField fullText .invoiceNumber,
    customerId := extractField fullText .customerId,
    dateOfInvoice := extractField fullText .dateOfInvoice,
    monthOfInvoice := extractMonthFromDate (extractField fullText .dateOfInvoice),
    currency := extractField fullText .currency,
    vat := extractField fullText .vat,
    creditNote := detectCreditNote fullText }

/-- A record of the output list.  Fields absent from the JS object
(header-only records have no line-item fields) are `none`; so are JS
`null` values — the claims never distinguish `undefined` from `null`. -/
structure InvoiceRecord where
  fileName : List Char
  projectId : Option (List Char)
  invoiceNumber : Option (List Char)
  customerId : Option (List Char)
  dateOfInvoice : Option (List Char)
  monthOfInvoice : Option (List Char)
  currency : Option (List Char)
  vat : Option (List Char)
  creditNote : Bool
  serviceProvisionPeriod : Option (List Char)
  position : Option (List Char)
  material : Option (List Char)
  positionDescription : Option (List Char)
  unit : Option (List Char)
  typeCost : Option (List Char)
  positionQuantity : Option JSNum
  unitPrice : Option JSNum
  positionTotal : Option JSNum
  pageNumber : Option Nat
  extractedInvoiceTotal : Option JSNum
deriving DecidableEq, Repr

/-- `{...baseInvoiceInfo, serviceProvisionPeriod, ...item, pageNumber,`
`extractedInvoiceTotal: null}`: a later spread overrides an earlier one,
so on the one colliding field name (`vat`) the line item's value wins. -/
def mergeRecord (base : BaseInvoiceInfo) (period : List Char) (item : LItem)
    (page : Nat) : InvoiceRecord :=
  { fileName := base.fileName, projectId := base.projectId,
    invoiceNumber := base.invoiceNumber, customerId := base.customerId,
    dateOfInvoice := base.dateOfInvoice, monthOfInvoice := base.monthOfInvoice,
    currency := base.currency,
    vat := some item.vat,
    creditNote := base.creditNote,
    serviceProvisionPeriod := some period,
    position := some item.position, material := some item.material,
    positionDescription := some item.positionDescription,
    unit := some item.unit, typeCost := some item.typeCost,
    positionQuantity := some item.positionQuantity,
    unitPrice := item.unitPrice, positionTotal := item.positionTotal,
    pageNumber := some page, extractedInvoiceTotal := none }

/-- `{...baseInvoiceInfo, extractedInvoiceTotal}`: the header-only record. -/
def headerOnlyRecord (base : BaseInvoiceInfo) (tot : Option JSNum) : InvoiceRecord :=
  { fileName := base.fileName, projectId := base.projectId,
    invoiceNumber := base.invoiceNumber, customerId := base.customerId,
    dateOfInvoice := base.dateOfInvoice, monthOfInvoice := base.monthOfInvoice,
    currency := base.currency, vat := base.vat, creditNote := base.creditNote,
    serviceProvisionPeriod := none, position := none, material := none,
    positionDescription := none, unit := none, typeCost := none,
    positionQuantity := none, unitPrice := none, positionTotal := none,
    pageNumber := none, extractedInvoiceTotal := tot }

/-- `allPageTotals` of `extractInvoiceData`. -/
def allPageTotalsOf (pageTexts : List (List Char)) : List PageTot :=
  pageTexts.enum.filterMap (fun pr =>
    (extractInvoiceTotal pr.2).map (fun a => PageTot.mk a (pr.1 + 1) pr.2))

/-- The per-page line-item pass of `extractInvoiceData`, before the final
total is stamped. -/
def pageRecordsOf (base : BaseInvoiceInfo) (pageTexts : List (List Char)) :
    List InvoiceRecord :=
  pageTexts.enum.flatMap (fun pr =>
    let pageServicePeriod := extractServicePeriodFromPage pr.2
    (extractLineItems pr.2 (pr.1 + 1)).map
      (fun it => mergeRecord base pageServicePeriod it (pr.1 + 1)))

/-- `extractInvoiceData(fullText, pageTexts, fileName)`. -/
def extractInvoiceData (fullText : List Char) (pageTexts : List (List Char))
    (fileName : List Char) : List InvoiceRecord :=
  let base := mkBaseInvoiceInfo fullText fileName
  let lineItems := pageRecordsOf base pageTexts
  let extractedInvoiceTotal := chooseBestTotal (allPageTotalsOf pageTexts)
  let stamped := lineItems.map
    (fun r => { r with extractedInvoiceTotal := extractedInvoiceTotal })
  if stamped.isEmpty then [headerOnlyRecord base extractedInvoiceTotal] else stamped

end I2E

namespace I2E

/-! ## The specification's own cross-page candidate model (§4.4)

The following definitions follow the specification's words, not the
code; they exist solely to compare the documented resolution rule with
the implemented one.  Per page, every selected Total/Subtotal line
yields its own candidate (kind and priority derived from that line); all
candidates are pooled across pages and sorted by priority ascending,
then page number descending. -/

/-- Spec §4.4 step 1: amount tokens within 50 characters after the
whole-word Total/Subtotal keyword on the same line; keep the one with
the largest absolute parsed value exceeding 1. -/
def specSameLineAmount (line : List Char) : Option JSNum :=
  let kwEnd :=
    match reFindFrom true reBoundary line 0 with
    | some (_, b, _) => b
    | none => 0
  (reFindAll false reAmountToken line).foldl (fun b astr =>
    match indexOfFrom line astr kwEnd with
    | some ai =>
        if ai - kwEnd < 50 then
          match parseAmount astr with
          | some amount =>
              if jsGt (jsAbs amount) (.num 1) &&
                 jsGt (jsAbs amount) (jsAbs (jsOrZero b)) then some amount else b
          | none => b
        else b
    | none => b) none

/-- Spec §4.4 step 2: otherwise the largest qualifying amount token on
the next up-to-two lines, skipping VAT-percentage lines. -/
def specNextLinesAmount (lines : List (List Char)) (i : Nat) : Option JSNum :=
  let js := (List.range lines.length).filter
    (fun j => i + 1 ≤ j && j < min (i + 3) lines.length)
  let best := js.foldl (fun b j =>
    let checkLine := lines.getD j []
    if reTest false reVatAnchor checkLine then b
    else
      (reFindAll false reAmountToken checkLine).foldl (fun b2 astr =>
        match parseAmount astr with
        | some amount =>
            if jsGt (jsAbs amount) (.num 1) &&
               jsGt (jsAbs amount) (jsAbs (jsOrZero b2)) then some amount else b2
        | none => b2) b) none
  best

/-- Spec §4.4 per-page scan: one candidate `(amount, priority)` per
selected line — whole-word Total/Subtotal, not a "Position Total"
header, no VAT-percentage pattern; kind Total (priority 1) iff the line
has a standalone `Total` word and no `Subtotal`. -/
def specPageCandidates (pageText : List Char) : List (JSNum × Nat) :=
  let lines := splitLines pageText
  (List.range lines.length).foldl (fun acc i =>
    let line := lines.getD i []
    if reTest true reBoundary line && !(reTest true rePositionTotal line) &&
       !(reTest false reVatAnchor line) then
      let priority := if lineIsMainTotal line then 1 else 2
      match specSameLineAmount line with
      | some a => acc ++ [(a, priority)]
      | none =>
          match specNextLinesAmount lines i with
          | some a => acc ++ [(a, priority)]
          | none => acc
    else acc) []

/-- A pooled candidate of the specification's model. -/
structure SpecCand where
  amount : JSNum
  priority : Nat
  pageNumber : Nat
deriving DecidableEq, Repr

def specLt (a b : SpecCand) : Bool :=
  a.priority < b.priority || (a.priority = b.priority && b.pageNumber < a.pageNumber)

/-- Spec §4.4 cross-page resolution: pool every page's candidates, sort
by priority ascending then page number descending, take the first. -/
def specResolveTotal (pageTexts : List (List Char)) : Option JSNum :=
  let cands := pageTexts.enum.flatMap (fun pr =>
    (specPageCandidates pr.2).map (fun c => SpecCand.mk c.1 c.2 (pr.1 + 1)))
  ((jsSortBy specLt cands).head?).map (fun c => c.amount)

/-! ## Properties of the stable sort -/

theorem mem_insertIn (lt : α → α → Bool) (x y : α) (l : List α) :
    y ∈ jsSortBy.insertIn lt x l ↔ y = x ∨ y ∈ l := by
  induction l with
  | nil => simp [jsSortBy.insertIn]
  | cons z zs ih =>
      by_cases h : lt z x = true
      · simp [jsSortBy.insertIn, h, ih]
        try tauto
      · simp [jsSortBy.insertIn, h]
        try tauto

theorem mem_jsSortBy (lt : α → α → Bool) (y : α) (l : List α) :
    y ∈ jsSortBy lt l ↔ y ∈ l := by
  induction l with
  | nil => simp [jsSortBy]
  | cons z zs ih => simp [jsSortBy, mem_insertIn, ih]

theorem length_jsSortBy (lt : α → α → Bool) (l : List α) :
    (jsSortBy lt l).length = l.length := by
  induction l with
  | nil => simp [jsSortBy]
  | cons z zs ih =>
      have haux : ∀ (x : α) (m : List α),
          (jsSortBy.insertIn lt x m).length = m.length + 1 := by
        intro x m
        induction m with
        | nil => simp [jsSortBy.insertIn]
        | cons w ws ihw =>
            by_cases h : lt w x = true
            · simp [jsSortBy.insertIn, h, ihw]
            · simp [jsSortBy.insertIn, h]
      simp [jsSortBy, haux, ih]

theorem pairwise_insertIn (lt : α → α → Bool)
    (hasymm : ∀ a b, lt a b = true → lt b a = false)
    (hnegtrans : ∀ a b c, lt b a = false → lt c b = false → lt c a = false)
    (x : α) (l : List α) (hp : l.Pairwise (fun a b => lt b a = false)) :
    (jsSortBy.insertIn lt x l).Pairwise (fun a b => lt b a = false) := by
  induction l with
  | nil => simp [jsSortBy.insertIn]
  | cons y ys ih =>
      rcases List.pairwise_cons.mp hp with ⟨hy, hys⟩
      by_cases h : lt y x = true
      · rw [jsSortBy.insertIn, if_pos h]
        refine List.pairwise_cons.mpr ⟨?_, ih hys⟩
        intro z hz
        rcases (mem_insertIn lt x z ys).mp hz with rfl | hzys
        · exact hasymm _ _ h
        · exact hy z hzys
      · rw [jsSortBy.insertIn, if_neg h]
        have hfx : lt y x = false := by simpa using h
        refine List.pairwise_cons.mpr ⟨?_, hp⟩
        intro z hz
        rcases List.mem_cons.mp hz with rfl | hzys
        · exact hfx
        · exact hnegtrans x y z hfx (hy z hzys)

theorem pairwise_jsSortBy (lt : α → α → Bool)
    (hasymm : ∀ a b, lt a b = true → lt b a = false)
    (hnegtrans : ∀ a b c, lt b a = false → lt c b = false → lt c a = false)
    (l : List α) :
    (jsSortBy lt l).Pairwise (fun a b => lt b a = false) := by
  induction l with
  | nil => simp [jsSortBy]
  | cons y ys ih => exact pairwise_insertIn lt hasymm hnegtrans y _ ih

theorem jsSortBy_head_min (lt : α → α → Bool)
    (hasymm : ∀ a b, lt a b = true → lt b a = false)
    (hnegtrans : ∀ a b c, lt b a = false → lt c b = false → lt c a = false)
    (l : List α) (h : α) (t : List α) (hs : jsSortBy lt l = h :: t) :
    ∀ y ∈ l, lt y h = false := by
  intro y hy
  have hmem : y ∈ h :: t := hs ▸ (mem_jsSortBy lt y l).mpr hy
  have hpw := pairwise_jsSortBy lt hasymm hnegtrans l
  rw [hs] at hpw
  rcases List.mem_cons.mp hmem with rfl | hyt
  · by_contra hcon
    have := hasymm y y (by simpa using hcon)
    simp_all
  · exact (List.pairwise_cons.mp hpw).1 y hyt

theorem crossLt_asymm (a b : TotCand) : crossLt a b = true → crossLt b a = false := by
  simp only [crossLt, Bool.or_eq_true, Bool.and_eq_true, decide_eq_true_eq,
    Bool.or_eq_false_iff, Bool.and_eq_false_iff, decide_eq_false_iff_not]
  omega

theorem crossLt_negtrans (a b c : TotCand) :
    crossLt b a = false → crossLt c b = false → crossLt c a = false := by
  simp only [crossLt, Bool.or_eq_true, Bool.and_eq_true, decide_eq_true_eq,
    Bool.or_eq_false_iff, Bool.and_eq_false_iff, decide_eq_false_iff_not]
  omega

end I2E

namespace I2E

/-! ## Helper lemmas on the string primitives -/

theorem mem_of_mem_removeFirstChar (c : Char) (s : List Char) :
    ∀ x ∈ removeFirstChar c s, x ∈ s := by
  induction s with
  | nil => simp [removeFirstChar]
  | cons y ys ih =>
      intro x hx
      by_cases h : y = c
      · rw [removeFirstChar, if_pos h] at hx
        exact List.mem_cons_of_mem y hx
      · rw [removeFirstChar, if_neg h] at hx
        rcases List.mem_cons.mp hx with rfl | hx
        · exact List.mem_cons_self x ys
        · exact List.mem_cons_of_mem y (ih x hx)

theorem mem_replaceFirstChar (a b : Char) (s : List Char) :
    ∀ x ∈ replaceFirstChar a b s, x = b ∨ x ∈ s := by
  induction s with
  | nil => simp [replaceFirstChar]
  | cons y ys ih =>
      intro x hx
      by_cases h : y = a
      · rw [replaceFirstChar, if_pos h] at hx
        rcases List.mem_cons.mp hx with rfl | hx
        · exact Or.inl rfl
        · exact Or.inr (List.mem_cons_of_mem y hx)
      · rw [replaceFirstChar, if_neg h] at hx
        rcases List.mem_cons.mp hx with rfl | hx
        · exact Or.inr (List.mem_cons_self x ys)
        · rcases ih x hx with hb | hs
          · exact Or.inl hb
          · exact Or.inr (List.mem_cons_of_mem y hs)

theorem takeWhile_eq_nil_of_none (p : Char → Bool) (s : List Char)
    (h : ∀ c ∈ s, p c = false) : s.takeWhile p = [] := by
  cases s with
  | nil => rfl
  | cons c cs => simp [List.takeWhile_cons, h c (List.mem_cons_self c cs)]

/-- A digit-free magnitude parses to NaN or Infinity, never a number. -/
theorem parseFloatMag_no_digits (s2 : List Char)
    (h : ∀ c ∈ s2, isDigitCh c = false) :
    parseFloatMag s2 = .nan ∨ parseFloatMag s2 = .inf false := by
  by_cases hi : (("Infinity".toList).isPrefixOf s2 : Bool)
  · right
    unfold parseFloatMag
    rw [if_pos hi]
  · left
    unfold parseFloatMag
    rw [if_neg hi]
    have hint : s2.takeWhile isDigitCh = [] := takeWhile_eq_nil_of_none _ _ h
    rw [hint]
    simp only [List.length_nil, List.drop_zero]
    by_cases hh : s2.head? = some '.'
    · have hcs : s2.tail.takeWhile isDigitCh = [] :=
        takeWhile_eq_nil_of_none _ _ (fun x hx => h x (List.mem_of_mem_tail hx))
      simp [hh, hcs]
    · simp [hh]

theorem parseFloatSign_snd_subset (l : List Char) :
    ∀ x ∈ (parseFloatSign l).2, x ∈ l := by
  cases l with
  | nil => simp [parseFloatSign]
  | cons c cs =>
      intro x hx
      by_cases h1 : c = '-'
      · rw [parseFloatSign, if_pos h1] at hx
        exact List.mem_cons_of_mem c hx
      · by_cases h2 : c = '+'
        · rw [parseFloatSign, if_neg h1, if_pos h2] at hx
          exact List.mem_cons_of_mem c hx
        · rw [parseFloatSign, if_neg h1, if_neg h2] at hx
          exact hx

/-- A digit-free string parses to NaN or a signed Infinity. -/
theorem parseFloat_no_digits (s : List Char)
    (h : ∀ c ∈ s, isDigitCh c = false) :
    parseFloat s = .nan ∨ parseFloat s = .inf false ∨ parseFloat s = .inf true := by
  have h1 : ∀ c ∈ s.dropWhile isJsSpace, isDigitCh c = false :=
    fun c hc => h c ((List.dropWhile_sublist (l := s) isJsSpace).subset hc)
  have h2 : ∀ c ∈ (parseFloatSign (s.dropWhile isJsSpace)).2, isDigitCh c = false :=
    fun c hc => h1 c (parseFloatSign_snd_subset _ c hc)
  unfold parseFloat
  rcases parseFloatMag_no_digits _ h2 with hm | hm <;>
    cases hb : (parseFloatSign (s.dropWhile isJsSpace)).1 <;>
      simp [hm, hb, jsNeg]

end I2E

namespace I2E

/-! ## Substring search and the credit-note detector -/

theorem indexOfFromAux_isSome (sub : List Char) :
    ∀ (s : List Char) (pos : Nat),
      (indexOfFromAux sub s pos).isSome = true ↔ sub <:+: s := by
  intro s
  induction s with
  | nil =>
      intro pos
      by_cases h : sub.isEmpty
      · have hsub : sub = [] := List.isEmpty_iff.mp h
        simp [indexOfFromAux, h, hsub]
      · have hne : sub ≠ [] := fun hn => h (by simp [hn])
        simp [indexOfFromAux, h, hne]
  | cons c cs ih =>
      intro pos
      by_cases hp : sub.isPrefixOf (c :: cs)
      · simp [indexOfFromAux, hp]
        exact ( List.isPrefixOf_iff_prefix.mp hp).isInfix
      · have hnp : ¬ sub <+: c :: cs := fun hcon =>
          hp ( List.isPrefixOf_iff_prefix.mpr hcon)
        simp only [indexOfFromAux, hp, Bool.false_eq_true, if_false, ih]
        rw [ List.infix_cons_iff]
        constructor
        · exact Or.inr
        · rintro (hcon | h2)
          · exact absurd hcon hnp
          · exact h2

theorem jsIncludes_iff_isInfix (s sub : List Char) :
    jsIncludes s sub = true ↔ sub <:+: s := by
  unfold jsIncludes indexOf indexOfFrom
  rw [List.drop_zero]
  exact indexOfFromAux_isSome sub s 0

theorem jsToLower_append (a b : List Char) :
    jsToLower (a ++ b) = jsToLower a ++ jsToLower b := by
  simp [jsToLower]

/-- C10: `detectCreditNote` is monotone under text extension — a
case-insensitive keyword found in `t` is still found in `p ++ t ++ s`,
because the per-character lowering distributes over concatenation and an
infix of `t` is an infix of any surrounding text. -/
theorem detectCreditNote_monotone (p t s : List Char)
    (h : detectCreditNote t = true) :
    detectCreditNote (p ++ t ++ s) = true := by
  unfold detectCreditNote at h ⊢
  rcases List.any_eq_true.mp h with ⟨ind, hind, hinc⟩
  refine List.any_eq_true.mpr ⟨ind, hind, ?_⟩
  rw [jsIncludes_iff_isInfix] at hinc ⊢
  have hlow : jsToLower (p ++ t ++ s) =
      jsToLower p ++ jsToLower t ++ jsToLower s := by
    rw [jsToLower_append, jsToLower_append]
  rw [hlow]
  exact hinc.trans ( List.infix_append (jsToLower p) (jsToLower t) (jsToLower s))

/-- Witness for C10 at the specification's own example: "Credit Note" is
detected, hence so is "This is a Credit Note for order 123". -/
theorem detectCreditNote_monotone_witness :
    detectCreditNote "Credit Note".toList = true ∧
    detectCreditNote ("This is a ".toList ++ "Credit Note".toList ++
      " for order 123".toList) = true :=
  ⟨by decide, detectCreditNote_monotone _ _ _ (by decide)⟩

/-! ## AmountParser -/

/-- C3: the locale examples of the spec — thousands dots are dropped when
the comma is the later separator (and conversely), the trailing minus
negates, and a plain integer parses unchanged. -/
theorem parseAmount_locale_examples :
    parseAmount "1.234,56".toList = some (.num 1234.56) ∧
    parseAmount "1234,56-".toList = some (.num (-1234.56)) ∧
    parseAmount "1.234,56-".toList = some (.num (-1234.56)) ∧
    parseAmount "50".toList = some (.num 50) ∧
    parseAmount "1,234.56".toList = some (.num 1234.56) := by
  have h1 : parseAmount "1.234,56".toList = some (.num (mkRat 123456 100)) := by decide
  have h2 : parseAmount "1234,56-".toList = some (.num (mkRat (-123456) 100)) := by decide
  have h3 : parseAmount "1.234,56-".toList = some (.num (mkRat (-123456) 100)) := by decide
  have h4 : parseAmount "50".toList = some (.num 50) := by decide
  have h5 : parseAmount "1,234.56".toList = some (.num (mkRat 123456 100)) := by decide
  refine ⟨?_, ?_, ?_, h4, ?_⟩ <;>
    first
      | (rw [h1]; norm_num [Rat.mkRat_eq_div])
      | (rw [h2]; norm_num [Rat.mkRat_eq_div])
      | (rw [h3]; norm_num [Rat.mkRat_eq_div])
      | (rw [h5]; norm_num [Rat.mkRat_eq_div])

/-- C9 counterexample: on the digit-free non-empty token "abc" the parser
returns NaN, not the `null` failure sentinel the claim requires. -/
theorem parseAmount_abc_is_nan_not_null :
    parseAmount "abc".toList = some JSNum.nan ∧
    parseAmount "abc".toList ≠ none := by decide

/-- C9 amended: a digit-free token yields `null` only when it is empty;
otherwise the result is NaN (or an Infinity for JavaScript Infinity
literals) — never a finite numeric value. -/
theorem parseAmount_no_digits_not_finite (s : List Char)
    (h : ∀ c ∈ s, isDigitCh c = false) :
    (s = [] → parseAmount s = none) ∧
    (∀ q : ℚ, parseAmount s ≠ some (JSNum.num q)) := by
  constructor
  · intro hnil
    subst hnil
    rfl
  · intro q
    have hclean : ∀ c ∈ parseAmountClean (removeFirstChar '-' s),
        isDigitCh c = false := by
      intro c hc
      unfold parseAmountClean at hc
      split at hc
      · rcases mem_replaceFirstChar ',' '.' _ c hc with rfl | hc2
        · rfl
        · exact h c (mem_of_mem_removeFirstChar '-' s c (List.mem_of_mem_filter hc2))
      · exact h c (mem_of_mem_removeFirstChar '-' s c (List.mem_of_mem_filter hc))
    by_cases hemp : s.isEmpty
    · simp [parseAmount, hemp]
    · simp only [parseAmount, hemp, Bool.false_eq_true, if_false]
      rcases parseFloat_no_digits _ hclean with hm | hm | hm <;>
        rw [hm] <;> by_cases hneg : s.getLast? = some '-' <;>
          simp [hneg, jsNeg]

/-- Witness for C9 at the token "abc" (and the rational 0). -/
theorem parseAmount_no_digits_not_finite_witness :
    (∀ c ∈ "abc".toList, isDigitCh c = false) ∧
    parseAmount "abc".toList ≠ some (JSNum.num 0) :=
  ⟨by decide, (parseAmount_no_digits_not_finite "abc".toList (by decide)).2 0⟩

end I2E

namespace I2E

/-! ## Merging line items with the header (InvoiceAssembler) -/

/-- C4 amended: in the record spread the line item comes after the
header, so on the one colliding field name — `vat` — the line item's
value wins; non-colliding header fields are carried over unchanged. -/
theorem mergeRecord_item_fields_win (base : BaseInvoiceInfo)
    (period : List Char) (item : LItem) (page : Nat) :
    (mergeRecord base period item page).vat = some item.vat ∧
    (mergeRecord base period item page).fileName = base.fileName ∧
    (mergeRecord base period item page).projectId = base.projectId ∧
    (mergeRecord base period item page).invoiceNumber = base.invoiceNumber ∧
    (mergeRecord base period item page).creditNote = base.creditNote :=
  ⟨rfl, rfl, rfl, rfl, rfl⟩

/-- C4 counterexample: a concrete document whose header has VAT ID
`NL123` and whose one line item carries the VAT token `21%(V1)`; the
assembled record holds the line item's token, not the header's ID, so
header fields do not take precedence. -/
theorem mergeRecord_header_precedence_fails :
    (mkBaseInvoiceInfo
        ("VAT ID: NL123\n1000 600001 Consulting Services 10 PU 21%(V1) 50,00 500,00\nTotal 250,00".toList)
        "f.pdf".toList).vat = some "NL123".toList ∧
    (extractInvoiceData
        ("VAT ID: NL123\n1000 600001 Consulting Services 10 PU 21%(V1) 50,00 500,00\nTotal 250,00".toList)
        ["1000 600001 Consulting Services 10 PU 21%(V1) 50,00 500,00\nTotal 250,00".toList]
        "f.pdf".toList).map (fun r => r.vat) = [some "21%(V1)".toList] ∧
    some "21%(V1)".toList ≠ some "NL123".toList := by
  refine ⟨by decide, by decide, by decide⟩

/-! ## HeaderFieldExtractor: dateOfInvoice -/

/-- C6 counterexample: a text that is exactly a DD.MM.YYYY token resolves
to `null` because both date patterns require a preceding "Date" word,
while with the prefix present the same token resolves. -/
theorem dateOfInvoice_bare_date_unresolved :
    extractField "01.02.2024".toList .dateOfInvoice = none ∧
    extractField "Date: 01.02.2024".toList .dateOfInvoice =
      some "01.02.2024".toList := by
  refine ⟨by decide, by decide⟩

/-- C6 amended: `dateOfInvoice` resolves only when the date token is
preceded by "Date" (case-insensitively, optional colon) — which also
covers "Invoice Date" — and stays `null` otherwise, even when a bare
date token is present. -/
theorem dateOfInvoice_requires_prefix :
    extractField "Date: 01.02.2024".toList .dateOfInvoice =
      some "01.02.2024".toList ∧
    extractField "Invoice Date 15/03/2024".toList .dateOfInvoice =
      some "15/03/2024".toList ∧
    extractField "invoice date: 7/8/1999 x".toList .dateOfInvoice =
      some "7/8/1999".toList ∧
    extractField "01.02.2024".toList .dateOfInvoice = none ∧
    extractField "hello".toList .dateOfInvoice = none := by
  refine ⟨by decide, by decide, by decide, by decide, by decide⟩

end I2E

namespace I2E

/-! ## Strategy B token positions -/

/-- A candidate line on which strategy B's tokens are easy to see:
the VAT anchor `21%(V1)` is preceded by `5,00` and followed by `30,00`. -/
def strategyBLineEx : List Char :=
  "1000 600001 Consulting Work Done 5,00 21%(V1) 30,00 150,00".toList

/-- C5 counterexample: on `strategyBLineEx` the produced unit price is
`30` — the parsed token immediately FOLLOWING the VAT anchor — while the
token immediately preceding the anchor is `5,00` (it becomes the unit),
so the claimed unit-price rule fails. -/
theorem strategyB_unitPrice_not_preceding_token :
    (splitByPred true isJsSpace (jsTrim strategyBLineEx)).getD 5 [] = "5,00".toList ∧
    (splitByPred true isJsSpace (jsTrim strategyBLineEx)).getD 6 [] = "21%(V1)".toList ∧
    (splitByPred true isJsSpace (jsTrim strategyBLineEx)).getD 7 [] = "30,00".toList ∧
    parseAmount "5,00".toList = some (.num 5) ∧
    (strategyBItem strategyBLineEx).map (fun it => it.unitPrice) =
      some (some (.num 30)) ∧
    (strategyBItem strategyBLineEx).map (fun it => it.unit) =
      some ("5,00".toList) ∧
    some (some (JSNum.num 30)) ≠ some (some (JSNum.num 5)) := by
  refine ⟨by decide, by decide, by decide, by decide, by decide, by decide, by decide⟩

/-- C5 amended: whenever strategy B produces an item, its unit price is
`parseAmount` of the token immediately following the VAT anchor (falsy
results defaulting to 0), its unit is the token immediately preceding
the anchor (default "PU"), and its quantity is the first bare-number
token scanned from two places after the position token up to (excluding)
two places before the anchor that is not already part of the accumulated
description, defaulting to 1. -/
theorem strategyB_unitPrice_quantity (line : List Char) (item : LItem)
    (h : strategyBItem line = some item) :
    item.unitPrice = some (jsOrZero (parseAmount
      ((splitByPred true isJsSpace (jsTrim line)).getD
        ((jsFindIdx (fun p => reTest false reVatAnchor p)
          (splitByPred true isJsSpace (jsTrim line))).toNat + 1) []))) ∧
    item.positionQuantity =
      ((qtyDescLoop (splitByPred true isJsSpace (jsTrim line))
          (((jsFindIdx (fun p => reTest false reVatAnchor p)
              (splitByPred true isJsSpace (jsTrim line))) - 2) -
            ((jsFindIdx (fun p => reTest false reFourDigits p)
              (splitByPred true isJsSpace (jsTrim line))) + 2)).toNat
          ((jsFindIdx (fun p => reTest false reFourDigits p)
              (splitByPred true isJsSpace (jsTrim line))).toNat + 2)
          []).2.getD (.num 1)) ∧
    item.unit =
      (if ((splitByPred true isJsSpace (jsTrim line)).getD
            ((jsFindIdx (fun p => reTest false reVatAnchor p)
              (splitByPred true isJsSpace (jsTrim line))).toNat - 1) []).isEmpty
       then "PU".toList
       else (splitByPred true isJsSpace (jsTrim line)).getD
            ((jsFindIdx (fun p => reTest false reVatAnchor p)
              (splitByPred true isJsSpace (jsTrim line))).toNat - 1) []) := by
  simp only [strategyBItem] at h
  split at h
  · split at h
    · rcases Option.some.inj h.symm with rfl
      exact ⟨rfl, rfl, rfl⟩
    · exact absurd h (by simp)
  · exact absurd h (by simp)

/-- Witness for C5: applying the amended theorem on `strategyBLineEx`. -/
theorem strategyB_unitPrice_quantity_witness :
    (∃ item, strategyBItem strategyBLineEx = some item ∧
      item.unitPrice = some (jsOrZero (parseAmount
        ((splitByPred true isJsSpace (jsTrim strategyBLineEx)).getD
          ((jsFindIdx (fun p => reTest false reVatAnchor p)
            (splitByPred true isJsSpace (jsTrim strategyBLineEx))).toNat + 1) [])))) := by
  cases hit : strategyBItem strategyBLineEx with
  | none => exact absurd hit (by decide)
  | some item =>
      exact ⟨item, rfl, (strategyB_unitPrice_quantity strategyBLineEx item hit).1⟩

end I2E

namespace I2E

/-! ## The strategy cascade -/

/-- C7: line-item extraction attempts strategy A, then B only when A
produced nothing for the page, then C only when B also produced nothing;
and a page with no candidate lines (no line longer than 20 characters
with a VAT anchor before the first Total/Subtotal boundary) yields the
empty list. -/
theorem extractLineItems_cascade (pageText : List Char) (n : Nat) :
    (candidateLinesOf (splitLines pageText) = [] →
      extractLineItems pageText n = []) ∧
    extractLineItems pageText n =
      (if strategyA (candidateLinesOf (splitLines pageText)) ≠ [] then
        strategyA (candidateLinesOf (splitLines pageText))
       else if strategyB (candidateLinesOf (splitLines pageText)) ≠ [] then
        strategyB (candidateLinesOf (splitLines pageText))
       else strategyC (candidateLinesOf (splitLines pageText))) := by
  constructor
  · intro hc
    simp [extractLineItems, hc, strategyA, strategyB, strategyC]
  · simp only [extractLineItems]
    by_cases hA : strategyA (candidateLinesOf (splitLines pageText)) = []
    · by_cases hB : strategyB (candidateLinesOf (splitLines pageText)) = []
      · simp [hA, hB]
      · simp [hA, hB, List.isEmpty_iff]
    · simp [hA, List.isEmpty_iff]

/-- Witness for C7: a page whose only content has no VAT anchors yields
no candidate lines and no items. -/
theorem extractLineItems_cascade_witness :
    candidateLinesOf (splitLines "short line\nno anchors here at all".toList) = [] ∧
    extractLineItems "short line\nno anchors here at all".toList 1 = [] :=
  ⟨by decide,
    (extractLineItems_cascade "short line\nno anchors here at all".toList 1).1
      (by decide)⟩

end I2E

namespace I2E

/-! ## Assembly invariants -/

theorem pageRecordsOf_eq_nil (base : BaseInvoiceInfo)
    (pageTexts : List (List Char))
    (h : ∀ pt ∈ pageTexts, extractLineItems pt 0 = []) :
    pageRecordsOf base pageTexts = [] := by
  have haux : ∀ (k : Nat) (l : List (List Char)),
      (∀ pt ∈ l, extractLineItems pt 0 = []) →
      (List.enumFrom k l).flatMap (fun pr =>
        (extractLineItems pr.2 (pr.1 + 1)).map
          (fun it => mergeRecord base (extractServicePeriodFromPage pr.2)
            it (pr.1 + 1))) = [] := by
    intro k l
    induction l generalizing k with
    | nil => intro _; rfl
    | cons x xs ih =>
        intro hl
        have hx : extractLineItems x (k + 1) = [] :=
          hl x (List.mem_cons_self x xs)
        simp only [List.enumFrom, List.flatMap_cons, hx, List.map_nil,
          List.nil_append]
        exact ih (k + 1) (fun pt hpt => hl pt (List.mem_cons_of_mem x hpt))
  unfold pageRecordsOf
  exact haux 0 pageTexts h

/-- C2: after assembly every emitted record carries the one cross-page
resolved total, and when no page yields any line item the output is
exactly the single header-only record carrying that total.  (The page
number passed to `extractLineItems` is used only for logging, so the
hypothesis quantifies it at 0.) -/
theorem extractInvoiceData_total_stamping (fullText : List Char)
    (pageTexts : List (List Char)) (fileName : List Char) :
    (∀ r ∈ extractInvoiceData fullText pageTexts fileName,
        r.extractedInvoiceTotal = chooseBestTotal (allPageTotalsOf pageTexts)) ∧
    ((∀ pt ∈ pageTexts, extractLineItems pt 0 = []) →
        extractInvoiceData fullText pageTexts fileName =
          [headerOnlyRecord (mkBaseInvoiceInfo fullText fileName)
            (chooseBestTotal (allPageTotalsOf pageTexts))]) := by
  constructor
  · intro r hr
    simp only [extractInvoiceData] at hr
    split at hr
    · rcases List.mem_singleton.mp hr with rfl
      rfl
    · rcases List.mem_map.mp hr with ⟨r', _, rfl⟩
      rfl
  · intro h
    have hnil := pageRecordsOf_eq_nil (mkBaseInvoiceInfo fullText fileName)
      pageTexts h
    simp [extractInvoiceData, hnil]

/-- Witness for C2 on a one-page document with no line items: the output
is the single header-only record, whose stamped total is the resolved
one. -/
theorem extractInvoiceData_total_stamping_witness :
    (headerOnlyRecord (mkBaseInvoiceInfo "Total 25,00".toList "x.pdf".toList)
        (chooseBestTotal (allPageTotalsOf ["Total 25,00".toList])) ∈
      extractInvoiceData "Total 25,00".toList ["Total 25,00".toList]
        "x.pdf".toList) ∧
    (∀ pt ∈ ["Total 25,00".toList], extractLineItems pt 0 = []) ∧
    extractInvoiceData "Total 25,00".toList ["Total 25,00".toList]
        "x.pdf".toList =
      [headerOnlyRecord (mkBaseInvoiceInfo "Total 25,00".toList "x.pdf".toList)
        (chooseBestTotal (allPageTotalsOf ["Total 25,00".toList]))] := by
  have h2 := (extractInvoiceData_total_stamping "Total 25,00".toList
    ["Total 25,00".toList] "x.pdf".toList).2 (by decide)
  exact ⟨by rw [h2]; exact List.mem_singleton.mpr rfl, by decide, h2⟩

end I2E

namespace I2E

/-! ## ServicePeriodResolver -/

/-- C8: the month-abbreviation rule maps "JAN 2024" to "January 2024";
the service-period fallback accepts "02/2024" after "Service Provision
Period:"; a page with neither yields the sentinel; and a bare `MM/YYYY`
token (any two-digit month) is accepted exactly when the month lies in
1..12, mapping to the month name. -/
theorem extractServicePeriodFromPage_rules :
    extractServicePeriodFromPage "header JAN 2024 bla".toList =
      "January 2024".toList ∧
    extractServicePeriodFromPage "Service Provision Period: 02/2024".toList =
      "February 2024".toList ∧
    extractServicePeriodFromPage "nothing here".toList =
      "Unknown Period".toList ∧
    (∀ m : Nat, m < 100 →
      extractServicePeriodFromPage ((Nat.repr m).toList ++ "/2024".toList) =
        (if 1 ≤ m ∧ m ≤ 12 then monthNamesArr.getD m [] ++ (' ' :: "2024".toList)
         else "Unknown Period".toList)) :=
  ⟨by decide, by decide, by decide, by decide⟩

/-- Witness for C8: the bare tokens "12/2024" and "13/2024" — the month
13 is rejected, the month 12 accepted. -/
theorem extractServicePeriodFromPage_rules_witness :
    (13 : Nat) < 100 ∧ (12 : Nat) < 100 ∧
    extractServicePeriodFromPage ((Nat.repr 13).toList ++ "/2024".toList) =
      "Unknown Period".toList ∧
    extractServicePeriodFromPage ((Nat.repr 12).toList ++ "/2024".toList) =
      "December 2024".toList := by
  have h13 := extractServicePeriodFromPage_rules.2.2.2 13 (by decide)
  have h12 := extractServicePeriodFromPage_rules.2.2.2 12 (by decide)
  refine ⟨by decide, by decide, ?_, ?_⟩
  · simpa using h13
  · simpa [monthNamesArr] using h12

end I2E

namespace I2E

/-! ## Cross-page total resolution -/

/-- C1 amended: the engine pools at most one candidate per page (the
per-page winner of `extractInvoiceTotal`), classifies each candidate by
its whole page text — priority 1 when the page has a standalone `Total`
word whose first `total`-containing line is not a Subtotal line,
priority 3 when the page mentions `Subtotal` and has no standalone
`Total` word that is not followed by `Subtotal` on its line, priority 2
otherwise — and selects a candidate minimal under priority ascending
then page number descending.  The spec's two examples hold: a Total page
outranks a "Subtotal (Net)" page, and of two Subtotal-only pages the
later wins. -/
theorem chooseBestTotal_selects_min (pageTexts : List (List Char))
    (h : classifyCandidates (allPageTotalsOf pageTexts) ≠ []) :
    (∃ c, c ∈ classifyCandidates (allPageTotalsOf pageTexts) ∧
       chooseBestTotal (allPageTotalsOf pageTexts) = some c.amount ∧
       ∀ d ∈ classifyCandidates (allPageTotalsOf pageTexts),
         crossLt d c = false) ∧
    chooseBestTotal (allPageTotalsOf
      ["Subtotal (Net) 100,00".toList, "Total 250,00".toList]) =
        some (.num 250) ∧
    chooseBestTotal (allPageTotalsOf
      ["Subtotal 80,00".toList, "Subtotal 120,00".toList]) =
        some (.num 120) := by
  refine ⟨?_, by decide, by decide⟩
  cases hs : jsSortBy crossLt (classifyCandidates (allPageTotalsOf pageTexts)) with
  | nil =>
      exfalso
      apply h
      have hlen := length_jsSortBy crossLt (classifyCandidates (allPageTotalsOf pageTexts))
      rw [hs] at hlen
      exact List.length_eq_zero.mp hlen.symm
  | cons c t =>
      refine ⟨c, ?_, ?_, ?_⟩
      · rw [← mem_jsSortBy crossLt c, hs]
        exact List.mem_cons_self c t
      · unfold chooseBestTotal
        rw [hs]
        rfl
      · exact jsSortBy_head_min crossLt crossLt_asymm crossLt_negtrans _ c t hs

/-- Witness for C1 at the spec's first example document. -/
theorem chooseBestTotal_selects_min_witness :
    classifyCandidates (allPageTotalsOf
      ["Subtotal (Net) 100,00".toList, "Total 250,00".toList]) ≠ [] ∧
    (∃ c, c ∈ classifyCandidates (allPageTotalsOf
        ["Subtotal (Net) 100,00".toList, "Total 250,00".toList]) ∧
       chooseBestTotal (allPageTotalsOf
        ["Subtotal (Net) 100,00".toList, "Total 250,00".toList]) = some c.amount ∧
       ∀ d ∈ classifyCandidates (allPageTotalsOf
        ["Subtotal (Net) 100,00".toList, "Total 250,00".toList]),
         crossLt d c = false) :=
  ⟨by decide,
    (chooseBestTotal_selects_min
      ["Subtotal (Net) 100,00".toList, "Total 250,00".toList] (by decide)).1⟩

/-- C1 counterexample: a two-page document on which the spec's pooled
per-line candidate rule (priority ascending, page descending) resolves
200, while the engine resolves 100 — the engine's page-level
classification ranks page 1 (priority 1) above the mixed page 2
(priority 2) even though page 2 holds a Total candidate. -/
theorem specResolveTotal_ne_chooseBestTotal :
    specResolveTotal
        ["Total 100,00".toList, "Subtotal 500,00\nTotal 200,00".toList] =
      some (.num 200) ∧
    chooseBestTotal (allPageTotalsOf
        ["Total 100,00".toList, "Subtotal 500,00\nTotal 200,00".toList]) =
      some (.num 100) ∧
    classifyCandidates (allPageTotalsOf
        ["Total 100,00".toList, "Subtotal 500,00\nTotal 200,00".toList]) ≠ [] ∧
    specResolveTotal
        ["Total 100,00".toList, "Subtotal 500,00\nTotal 200,00".toList] ≠
      chooseBestTotal (allPageTotalsOf
        ["Total 100,00".toList, "Subtotal 500,00\nTotal 200,00".toList]) := by
  refine ⟨by decide, by decide, by decide, by decide⟩

end I2E
